import Mathlib

/-!
Shallow embedding of `src/rust/src/tabs.rs` (the xi-editor session registry,
`Tabs`, together with its per-command `TabCtx` and per-plugin `PluginCtx`
context objects) and proofs about it.

Modelling conventions:
* `serde_json::Value` becomes the inductive `Value` below (only the
  constructors this file uses are included).
* `xi_rope::Rope` is used by `tabs.rs` only as an opaque cloneable value
  (the kill ring), so it is modelled as `String`.
* `Arc<Mutex<Editor>>` cells are modelled by an explicit heap: the registry
  carries an association list `heap : List (Nat × Editor)` of allocated
  cells plus a fresh-reference counter, and the `tabs` map stores cell
  references.  This keeps the fact that an edit mutates the editor *inside*
  a cell without touching the id→cell mapping itself.
* The `Editor` collaborator (`editor.rs`, not part of the embedded file) is
  opaque: the operations `tabs.rs` calls on it are parameters, bundled in
  `EditorOps`.  Its `do_rpc` receives the pieces of `TabCtx` it can act
  through explicitly: the context value, the current kill ring, and it
  returns the optional response, its new state, the new kill ring and the
  outbound effects it emitted.
* Outbound RPC notifications and `print_err!` diagnostics are modelled as
  explicit `Effect` values returned alongside each operation's result.
-/

/-- Model of `serde_json::Value` (the constructors used by `tabs.rs`). -/
inductive Value where
  | str (s : String)
  | u64 (n : Nat)
  | arr (elems : List Value)
  | obj (fields : List (String × Value))

/-- Model of `xi_rope::Rope`: `tabs.rs` treats it as an opaque cloneable
text value, so a `String` suffices. -/
abbrev Rope : Type := String

/-- `Rope::from(s)`. -/
def Rope.ofString (s : String) : Rope := s

/-- An observable side effect of a registry operation: an RPC notification
sent to the front-end peer (`send_rpc_notification`), or a diagnostic line
written by `print_err!`. -/
inductive Effect where
  | frontendNotif (method : String) (params : Value)
  | diagnostic (msg : String)

/-- Association-list lookup, modelling `BTreeMap::get`. -/
def mapGet {α β : Type} [DecidableEq α] (k : α) : List (α × β) → Option β
  | [] => none
  | (k', v) :: rest => if k = k' then some v else mapGet k rest

/-- Association-list insert-or-replace, modelling `BTreeMap::insert`. -/
def mapInsert {α β : Type} [DecidableEq α] (k : α) (v : β) : List (α × β) → List (α × β)
  | [] => [(k, v)]
  | (k', v') :: rest => if k = k' then (k, v) :: rest else (k', v') :: mapInsert k v rest

/-- Association-list removal, modelling `BTreeMap::remove`. -/
def mapRemove {α β : Type} [DecidableEq α] (k : α) : List (α × β) → List (α × β)
  | [] => []
  | (k', v) :: rest => if k = k' then rest else (k', v) :: mapRemove k rest

/-- State of `struct Tabs`, plus the heap of `Arc<Mutex<Editor>>` cells the
map's values point into. -/
structure Tabs (Editor : Type) where
  tabs : List (String × Nat)
  id_counter : Nat
  kill_ring : Rope
  heap : List (Nat × Editor)
  next_ref : Nat

/-- `struct TabCtx`: the tab name and the cloned self reference.  The
`kill_ring` and `rpc_peer` borrows are modelled by the context's operations
taking the registry state, respectively returning `Effect`s. -/
structure TabCtx where
  tab : String
  self_ref : Nat

/-- `struct PluginCtx`.  `PluginPeer` handles are opaque, modelled as `Nat`;
the `main_peer` channel is modelled by `Effect.frontendNotif`. -/
structure PluginCtx where
  plugin_peer : Option Nat
  editor : Nat

/-- Result of the `Editor` collaborator's `do_rpc`: the optional response,
the editor's new state, the kill ring after any `get/set_kill_ring` calls it
made through the context, and the notifications it emitted through the
context. -/
structure DocResult (Editor : Type) where
  response : Option Value
  editor : Editor
  kill_ring : Rope
  effects : List Effect

/-- Modelled from the spec: the `Editor` collaborator (document component,
`editor.rs`, outside the embedded file) is consumed opaquely through the
operations `tabs.rs` invokes on it: `Editor::new`, `Editor::do_rpc` and
`Editor::plugin_buf_size` (the document's size metric). -/
structure EditorOps (Editor EditCommand : Type) where
  new : Editor
  do_rpc : EditCommand → Editor → TabCtx → Rope → DocResult Editor
  plugin_buf_size : Editor → Nat

/-- `enum TabCommand` (from `rpc.rs`, as consumed by `Tabs::do_rpc`). -/
inductive TabCommand (EditCommand : Type) where
  | newTab
  | deleteTab (tab_name : String)
  | edit (tab_name : String) (edit_command : EditCommand)

variable {Editor EditCommand : Type}

/-- `Tabs::new()`. -/
def Tabs.new : Tabs Editor :=
  { tabs := [], id_counter := 0, kill_ring := Rope.ofString "", heap := [], next_ref := 0 }

/-- `Tabs::new_tab`: renders the current counter as the tab name, increments
the counter, allocates a fresh editor cell, inserts the mapping and returns
the name. -/
def Tabs.new_tab (ops : EditorOps Editor EditCommand) (t : Tabs Editor) :
    String × Tabs Editor :=
  let tabname := Nat.repr t.id_counter
  (tabname,
    { tabs := mapInsert tabname t.next_ref t.tabs
      id_counter := t.id_counter + 1
      kill_ring := t.kill_ring
      heap := mapInsert t.next_ref ops.new t.heap
      next_ref := t.next_ref + 1 })

/-- `Tabs::delete_tab`: `self.tabs.remove(tabname)`. -/
def Tabs.delete_tab (t : Tabs Editor) (tabname : String) : Tabs Editor :=
  { t with tabs := mapRemove tabname t.tabs }

/-- `Tabs::do_edit`: looks the tab up; if present, builds a `TabCtx` and
forwards the command to the editor (the editor's effect on its own cell and
on the kill ring is written back); if absent, prints a diagnostic and
returns `None`.  The inner `none` branch (a dangling cell reference) is
unreachable from reachable states: every reference stored in `tabs` is
allocated in `heap`. -/
def Tabs.do_edit (ops : EditorOps Editor EditCommand) (t : Tabs Editor)
    (tab : String) (cmd : EditCommand) : Option Value × Tabs Editor × List Effect :=
  match mapGet tab t.tabs with
  | some r =>
    match mapGet r t.heap with
    | some ed =>
      let tab_ctx : TabCtx := { tab := tab, self_ref := r }
      let res := ops.do_rpc cmd ed tab_ctx t.kill_ring
      (res.response,
        { t with heap := mapInsert r res.editor t.heap, kill_ring := res.kill_ring },
        res.effects)
    | none => (none, t, [])
  | none => (none, t, [Effect.diagnostic ("tab not found: " ++ tab)])

/-- `Tabs::do_new_tab`. -/
def Tabs.do_new_tab (ops : EditorOps Editor EditCommand) (t : Tabs Editor) :
    String × Tabs Editor :=
  Tabs.new_tab ops t

/-- `Tabs::do_delete_tab`. -/
def Tabs.do_delete_tab (t : Tabs Editor) (tab : String) : Tabs Editor :=
  Tabs.delete_tab t tab

/-- `Tabs::do_rpc`: top-level command dispatch. -/
def Tabs.do_rpc (ops : EditorOps Editor EditCommand) (t : Tabs Editor)
    (cmd : TabCommand EditCommand) : Option Value × Tabs Editor × List Effect :=
  match cmd with
  | TabCommand.newTab =>
    let (name, t') := Tabs.do_new_tab ops t
    (some (Value.str name), t', [])
  | TabCommand.deleteTab tab_name =>
    (none, Tabs.do_delete_tab t tab_name, [])
  | TabCommand.edit tab_name edit_command => Tabs.do_edit ops t tab_name edit_command

/-- `TabCtx::update_tab`: sends one `update` notification tagged with the
tab name; the registry state is untouched (threaded through unchanged). -/
def TabCtx.update_tab (ctx : TabCtx) (update : Value) (t : Tabs Editor) :
    Tabs Editor × List Effect :=
  (t, [Effect.frontendNotif "update"
        (Value.obj [("tab", Value.str ctx.tab), ("update", update)])])

/-- `TabCtx::get_kill_ring`: snapshot copy of the shared kill ring (the
context holds a borrow of the registry's kill ring, so the registry state is
the extra argument; the context value itself does not influence the read). -/
def TabCtx.get_kill_ring (_ctx : TabCtx) (t : Tabs Editor) : Rope :=
  t.kill_ring

/-- `TabCtx::set_kill_ring`: whole-value replacement of the shared kill ring. -/
def TabCtx.set_kill_ring (_ctx : TabCtx) (t : Tabs Editor) (val : Rope) : Tabs Editor :=
  { t with kill_ring := val }

/-- `TabCtx::get_self_ref`: clone of the `Arc` reference to this tab's editor. -/
def TabCtx.get_self_ref (ctx : TabCtx) : Nat :=
  ctx.self_ref

/-- `TabCtx::to_plugin_ctx`. -/
def TabCtx.to_plugin_ctx (ctx : TabCtx) : PluginCtx :=
  { plugin_peer := none, editor := TabCtx.get_self_ref ctx }

/-- One primitive step of `PluginCtx::on_plugin_connect`, in source order:
reading the buffer size from the editor, sending a notification to the
plugin peer, or storing the peer into `self.plugin_peer`. -/
inductive ConnectStep where
  | readBufSize (n : Nat)
  | sendToPlugin (peer : Nat) (method : String) (params : Value)
  | recordPeer (peer : Nat)

/-- `PluginCtx::on_plugin_connect`: reads the editor's buffer size, sends
the `ping_from_editor` notification to the newly connected peer, then
records the peer.  Returns the updated context and the trace of primitive
steps in the order the source performs them.  The `none` branch (dangling
editor reference) is unreachable from reachable states. -/
def PluginCtx.on_plugin_connect (ops : EditorOps Editor EditCommand)
    (t : Tabs Editor) (pc : PluginCtx) (peer : Nat) : PluginCtx × List ConnectStep :=
  match mapGet pc.editor t.heap with
  | some ed =>
    let buf_size := ops.plugin_buf_size ed
    ({ pc with plugin_peer := some peer },
      [ConnectStep.readBufSize buf_size,
       ConnectStep.sendToPlugin peer "ping_from_editor" (Value.arr [Value.u64 buf_size]),
       ConnectStep.recordPeer peer])
  | none => (pc, [])

/-- `PluginCtx::alert`: one `alert` notification to the front end. -/
def PluginCtx.alert (_pc : PluginCtx) (msg : String) : Effect :=
  Effect.frontendNotif "alert" (Value.obj [("msg", Value.str msg)])

/-- Whether a `ConnectStep` is the send of a notification to the plugin peer. -/
def ConnectStep.isSend : ConnectStep → Bool
  | ConnectStep.sendToPlugin _ _ _ => true
  | _ => false

/-- Whether a `ConnectStep` is the store into `self.plugin_peer`. -/
def ConnectStep.isRecord : ConnectStep → Bool
  | ConnectStep.recordPeer _ => true
  | _ => false

/-- The method name carried by a send step, if any. -/
def ConnectStep.sentMethod : ConnectStep → Option String
  | ConnectStep.sendToPlugin _ m _ => some m
  | _ => none

/-!
Decimal rendering.  `usize::to_string` in `Tabs::new_tab` corresponds to
`Nat.repr`.  The lemmas below establish that `Nat.repr` is injective, via a
reference digit list `decDigits` and its decoding `decValue`.
-/

/-- Reference decimal digit list of a natural number (most significant
digit first), mirroring what `Nat.toDigits 10` produces. -/
def decDigits (n : Nat) : List Char :=
  if _h : n < 10 then [Nat.digitChar n]
  else decDigits (n / 10) ++ [Nat.digitChar (n % 10)]
termination_by n
decreasing_by
  exact Nat.div_lt_self (by omega) (by omega)

/-- Numeric value of a decimal digit character. -/
def digitVal (c : Char) : Nat := c.toNat - 48

/-- Decode a decimal digit list back to a number. -/
def decValue (l : List Char) : Nat :=
  l.foldl (fun a c => 10 * a + digitVal c) 0

theorem digitVal_digitChar (m : Nat) (h : m < 10) :
    digitVal (Nat.digitChar m) = m := by
  interval_cases m <;> decide

theorem decValue_append_digit (l : List Char) (c : Char) :
    decValue (l ++ [c]) = 10 * decValue l + digitVal c := by
  simp [decValue, List.foldl_append]

theorem decValue_decDigits (n : Nat) : decValue (decDigits n) = n := by
  induction n using Nat.strong_induction_on with
  | _ n ih =>
    rw [decDigits]
    by_cases h : n < 10
    · simp only [h, dite_true, decValue, List.foldl]
      rw [Nat.mul_zero, Nat.zero_add, digitVal_digitChar n h]
    · simp only [h, dite_false, decValue_append_digit]
      rw [ih (n / 10) (Nat.div_lt_self (by omega) (by omega)),
        digitVal_digitChar (n % 10) (Nat.mod_lt n (by omega))]
      omega

theorem decDigits_injective : Function.Injective decDigits := by
  intro a b h
  have := congrArg decValue h
  rwa [decValue_decDigits, decValue_decDigits] at this

theorem toDigitsCore_eq_decDigits (f : Nat) :
    ∀ (n : Nat) (ds : List Char), n < f →
      Nat.toDigitsCore 10 f n ds = decDigits n ++ ds := by
  induction f with
  | zero => intro n ds h; omega
  | succ f ih =>
    intro n ds h
    simp only [Nat.toDigitsCore]
    by_cases h10 : n / 10 = 0
    · have hlt : n < 10 := by omega
      rw [if_pos h10, decDigits]
      simp [hlt, Nat.mod_eq_of_lt hlt]
    · have hge : 10 ≤ n := by omega
      rw [if_neg h10, ih (n / 10) _ (by omega)]
      conv_rhs => rw [decDigits]
      simp [show ¬ n < 10 by omega, List.append_assoc]

theorem toDigits_eq_decDigits (n : Nat) : Nat.toDigits 10 n = decDigits n := by
  have := toDigitsCore_eq_decDigits (n + 1) n [] (Nat.lt_succ_self n)
  simpa [Nat.toDigits] using this

theorem Nat_repr_injective : Function.Injective Nat.repr := by
  intro a b h
  apply decDigits_injective
  rw [← toDigits_eq_decDigits, ← toDigits_eq_decDigits]
  have h2 := congrArg String.data h
  simpa [Nat.repr, List.asString] using h2

/-!
Sequences of `new_tab` / `delete_tab` calls, for the session-id invariant.
-/

/-- One registry-lifecycle call: `new_tab` or `delete_tab`. -/
inductive SessionCmd where
  | create
  | delete (name : String)

/-- Whether a `SessionCmd` is a `new_tab` call. -/
def SessionCmd.isCreate : SessionCmd → Bool
  | SessionCmd.create => true
  | SessionCmd.delete _ => false

/-- Run a sequence of `new_tab` / `delete_tab` calls from a state, returning
the final state and the list of tab names returned by the `new_tab` calls,
in call order. -/
def runSessionCmds (ops : EditorOps Editor EditCommand) (t : Tabs Editor) :
    List SessionCmd → Tabs Editor × List String
  | [] => (t, [])
  | SessionCmd.create :: cs =>
    let p := Tabs.new_tab ops t
    let q := runSessionCmds ops p.2 cs
    (q.1, p.1 :: q.2)
  | SessionCmd.delete name :: cs => runSessionCmds ops (Tabs.delete_tab t name) cs

theorem runSessionCmds_ids (ops : EditorOps Editor EditCommand) :
    ∀ (cs : List SessionCmd) (t : Tabs Editor),
      (runSessionCmds ops t cs).2 =
        (List.range (cs.countP SessionCmd.isCreate)).map
          (fun i => Nat.repr (t.id_counter + i)) := by
  intro cs
  induction cs with
  | nil => intro t; simp [runSessionCmds]
  | cons c cs ih =>
    intro t
    cases c with
    | create =>
      rw [runSessionCmds]
      have hc : (SessionCmd.create :: cs).countP SessionCmd.isCreate =
          cs.countP SessionCmd.isCreate + 1 := by
        simp [List.countP_cons, SessionCmd.isCreate]
      rw [hc, ih, List.range_succ_eq_map]
      simp only [Tabs.new_tab, List.map_cons, List.map_map]
      congr 1
      apply List.map_congr_left
      intro i _
      simp only [Function.comp_apply]
      congr 1
      omega
    | delete name =>
      rw [runSessionCmds]
      have hc : (SessionCmd.delete name :: cs).countP SessionCmd.isCreate =
          cs.countP SessionCmd.isCreate := by
        simp [List.countP_cons, SessionCmd.isCreate]
      rw [hc, ih]
      rfl

theorem mapGet_none_mapRemove {α β : Type} [DecidableEq α] (k : α) (m : List (α × β))
    (h : mapGet k m = none) : mapRemove k m = m := by
  induction m with
  | nil => rfl
  | cons p rest ih =>
    obtain ⟨k', v⟩ := p
    rw [mapGet] at h
    by_cases hk : k = k'
    · simp [hk] at h
    · rw [if_neg hk] at h
      rw [mapRemove, if_neg hk, ih h]

/-!
A trivial concrete instantiation of the editor collaborator and a small
concrete registry state, used to evaluate the theorems on concrete inputs.
-/

/-- A concrete editor collaborator over `Unit` states and commands. -/
def unitOps : EditorOps Unit Unit where
  new := ()
  do_rpc := fun _ ed _ kr =>
    { response := some (Value.str "ok"), editor := ed, kill_ring := kr, effects := [] }
  plugin_buf_size := fun _ => 42

/-- A concrete registry state holding the single session `"0"`. -/
def tabs1 : Tabs Unit :=
  { tabs := [("0", 0)], id_counter := 1, kill_ring := Rope.ofString "",
    heap := [(0, ())], next_ref := 1 }

/-- A concrete plugin context over session `"0"`'s editor cell. -/
def pc1 : PluginCtx := { plugin_peer := none, editor := 0 }

/-- The step trace of a concrete `on_plugin_connect` call. -/
def connectTrace : List ConnectStep :=
  (PluginCtx.on_plugin_connect unitOps tabs1 pc1 7).2

/-!  The claims.  -/

/-- Claim C1: over any sequence of `new_tab` and `delete_tab` calls starting
from `Tabs::new()`, the tab names returned by `new_tab` are the decimal
string renderings of 0, 1, 2, ... in creation order, and no name is ever
returned twice, even when sessions are deleted in between. -/
theorem session_ids_sequential_and_unique (ops : EditorOps Editor EditCommand)
    (cs : List SessionCmd) :
    (runSessionCmds ops Tabs.new cs).2 =
      (List.range (cs.countP SessionCmd.isCreate)).map Nat.repr ∧
    (runSessionCmds ops Tabs.new cs).2.Nodup := by
  have h := runSessionCmds_ids ops cs Tabs.new
  have hz : (Tabs.new : Tabs Editor).id_counter = 0 := rfl
  rw [hz] at h
  simp only [Nat.zero_add] at h
  refine ⟨h, ?_⟩
  rw [h]
  exact List.Nodup.map Nat_repr_injective (List.nodup_range _)

/-- Claim C2: `do_rpc (DeleteTab name)` for a name absent from the map
returns no response and no effects, and leaves the registry state exactly
as it was (same mapping, hence same size, and same id counter); repeating
the call with the same name is therefore idempotent. -/
theorem delete_tab_absent_noop (ops : EditorOps Editor EditCommand)
    (t : Tabs Editor) (name : String) (h : mapGet name t.tabs = none) :
    Tabs.do_rpc ops t (TabCommand.deleteTab name) = (none, t, []) := by
  simp only [Tabs.do_rpc, Tabs.do_delete_tab, Tabs.delete_tab,
    mapGet_none_mapRemove name t.tabs h]

theorem delete_tab_absent_noop_witness :
    mapGet "1" tabs1.tabs = none ∧
    Tabs.do_rpc unitOps tabs1 (TabCommand.deleteTab "1") = (none, tabs1, []) :=
  ⟨by decide, delete_tab_absent_noop unitOps tabs1 "1" (by decide)⟩

/-- Claim C3: an edit dispatched to a session id absent from the map
(including a previously deleted one) returns no response, emits exactly one
diagnostic and nothing else, and leaves the registry state unchanged; in
particular no entry is re-inserted for that id. -/
theorem do_edit_absent_no_resurrect (ops : EditorOps Editor EditCommand)
    (t : Tabs Editor) (tab : String) (cmd : EditCommand)
    (h : mapGet tab t.tabs = none) :
    Tabs.do_edit ops t tab cmd =
      (none, t, [Effect.diagnostic ("tab not found: " ++ tab)]) := by
  simp [Tabs.do_edit, h]

theorem do_edit_absent_no_resurrect_witness :
    mapGet "1" tabs1.tabs = none ∧
    Tabs.do_edit unitOps tabs1 "1" () =
      (none, tabs1, [Effect.diagnostic ("tab not found: " ++ "1")]) :=
  ⟨by decide, do_edit_absent_no_resurrect unitOps tabs1 "1" () (by decide)⟩

/-- Claim C4: the kill ring is a single session-agnostic buffer, written by
whole-value replacement and read by snapshot copy: a `set_kill_ring`
through one context followed by a `get_kill_ring` through any other context
over the resulting registry state returns the written value. -/
theorem kill_ring_write_read (ctx₁ ctx₂ : TabCtx) (t : Tabs Editor) (v : Rope) :
    TabCtx.get_kill_ring ctx₂ (TabCtx.set_kill_ring ctx₁ t v) = v := rfl

/-- Claim C5 as stated is false on the code: at this concrete attachment,
the trace of `on_plugin_connect` sends the handshake notification (index 1)
*before* it records the peer channel (index 2); the claim asserts the
channel is recorded first and the notification sent afterwards. -/
theorem on_plugin_connect_order_counterexample :
    (connectTrace.findIdx ConnectStep.isSend = 1 ∧
     connectTrace.findIdx ConnectStep.isRecord = 2) ∧
    ¬ connectTrace.findIdx ConnectStep.isRecord <
        connectTrace.findIdx ConnectStep.isSend := by
  decide

/-- Claim C5 (amended): `on_plugin_connect` sends exactly one handshake
notification to the newly connected peer, whose size field is the editor's
`plugin_buf_size` read at the moment of the call, and *then* records the
channel (setting the attached state). -/
theorem on_plugin_connect_handshake (ops : EditorOps Editor EditCommand)
    (t : Tabs Editor) (pc : PluginCtx) (peer : Nat) (ed : Editor)
    (h : mapGet pc.editor t.heap = some ed) :
    (PluginCtx.on_plugin_connect ops t pc peer).1.plugin_peer = some peer ∧
    (PluginCtx.on_plugin_connect ops t pc peer).2.filter ConnectStep.isSend =
      [ConnectStep.sendToPlugin peer "ping_from_editor"
        (Value.arr [Value.u64 (ops.plugin_buf_size ed)])] ∧
    (PluginCtx.on_plugin_connect ops t pc peer).2.findIdx ConnectStep.isSend <
      (PluginCtx.on_plugin_connect ops t pc peer).2.findIdx ConnectStep.isRecord := by
  simp [PluginCtx.on_plugin_connect, h, ConnectStep.isSend, ConnectStep.isRecord,
    List.findIdx_cons]

theorem on_plugin_connect_handshake_witness :
    mapGet pc1.editor tabs1.heap = some () ∧
    ((PluginCtx.on_plugin_connect unitOps tabs1 pc1 7).1.plugin_peer = some 7 ∧
     (PluginCtx.on_plugin_connect unitOps tabs1 pc1 7).2.filter ConnectStep.isSend =
       [ConnectStep.sendToPlugin 7 "ping_from_editor"
         (Value.arr [Value.u64 (unitOps.plugin_buf_size ())])] ∧
     (PluginCtx.on_plugin_connect unitOps tabs1 pc1 7).2.findIdx ConnectStep.isSend <
       (PluginCtx.on_plugin_connect unitOps tabs1 pc1 7).2.findIdx ConnectStep.isRecord) :=
  ⟨by decide, on_plugin_connect_handshake unitOps tabs1 pc1 7 () (by decide)⟩

/-- Claim C6 as stated is false on the code: the only notification the
handshake sends uses the method name `ping_from_editor` (underscores),
which is not the claimed `ping-from-editor` (hyphens). -/
theorem handshake_method_name_counterexample :
    connectTrace.filterMap ConnectStep.sentMethod = ["ping_from_editor"] ∧
    ("ping_from_editor" : String) ≠ "ping-from-editor" := by
  decide

/-- Claim C6 (amended): the handshake notification toward the agent uses
the method name `ping_from_editor` and carries the document's size metric
at attachment time as its payload. -/
theorem handshake_method_and_payload (ops : EditorOps Editor EditCommand)
    (t : Tabs Editor) (pc : PluginCtx) (peer : Nat) (ed : Editor)
    (h : mapGet pc.editor t.heap = some ed) :
    (PluginCtx.on_plugin_connect ops t pc peer).2.filterMap ConnectStep.sentMethod =
      ["ping_from_editor"] ∧
    (PluginCtx.on_plugin_connect ops t pc peer).2.filter ConnectStep.isSend =
      [ConnectStep.sendToPlugin peer "ping_from_editor"
        (Value.arr [Value.u64 (ops.plugin_buf_size ed)])] := by
  simp [PluginCtx.on_plugin_connect, h, ConnectStep.sentMethod, ConnectStep.isSend]

theorem handshake_method_and_payload_witness :
    mapGet pc1.editor tabs1.heap = some () ∧
    ((PluginCtx.on_plugin_connect unitOps tabs1 pc1 7).2.filterMap ConnectStep.sentMethod =
       ["ping_from_editor"] ∧
     (PluginCtx.on_plugin_connect unitOps tabs1 pc1 7).2.filter ConnectStep.isSend =
       [ConnectStep.sendToPlugin 7 "ping_from_editor"
         (Value.arr [Value.u64 (unitOps.plugin_buf_size ())])]) :=
  ⟨by decide, handshake_method_and_payload unitOps tabs1 pc1 7 () (by decide)⟩

/-- Claim C7: `update_tab` sends exactly one outbound notification, with
method name `update` and a payload object carrying this session's id and
the given payload, and changes nothing in the registry state. -/
theorem update_tab_notifies (ctx : TabCtx) (upd : Value) (t : Tabs Editor) :
    TabCtx.update_tab ctx upd t =
      (t, [Effect.frontendNotif "update"
            (Value.obj [("tab", Value.str ctx.tab), ("update", upd)])]) := rfl

/-- Claim C8: for a session id present in the map, `do_edit` returns exactly
the optional response the editor's own `do_rpc` produces, unmodified and
unexamined (including the `none` case), for an arbitrary opaque editor
implementation. -/
theorem do_edit_passthrough (ops : EditorOps Editor EditCommand) (t : Tabs Editor)
    (tab : String) (cmd : EditCommand) (r : Nat) (ed : Editor)
    (h1 : mapGet tab t.tabs = some r) (h2 : mapGet r t.heap = some ed) :
    (Tabs.do_edit ops t tab cmd).1 =
      (ops.do_rpc cmd ed { tab := tab, self_ref := r } t.kill_ring).response := by
  simp [Tabs.do_edit, h1, h2]

theorem do_edit_passthrough_witness :
    (mapGet "0" tabs1.tabs = some 0 ∧ mapGet 0 tabs1.heap = some ()) ∧
    (Tabs.do_edit unitOps tabs1 "0" ()).1 =
      (unitOps.do_rpc () () { tab := "0", self_ref := 0 } tabs1.kill_ring).response :=
  ⟨⟨by decide, by decide⟩,
   do_edit_passthrough unitOps tabs1 "0" () 0 () (by decide) (by decide)⟩

/-- Claim C9: in a freshly constructed registry, before any write, the kill
ring is the empty rope, so `get_kill_ring` through any context returns it. -/
theorem fresh_kill_ring_empty (ctx : TabCtx) :
    TabCtx.get_kill_ring ctx (Tabs.new : Tabs Editor) = Rope.ofString "" := rfl

/-- Claim C10: dispatching an edit — to any session id, present or absent —
never changes the id→document mapping or the id counter; and `delete_tab`
never changes the counter (so among the registry operations only `new_tab`
moves the counter, and only `new_tab` / `delete_tab` change the mapping). -/
theorem do_edit_frame (ops : EditorOps Editor EditCommand) (t : Tabs Editor)
    (tab name : String) (cmd : EditCommand) :
    (Tabs.do_edit ops t tab cmd).2.1.tabs = t.tabs ∧
    (Tabs.do_edit ops t tab cmd).2.1.id_counter = t.id_counter ∧
    (Tabs.delete_tab t name).id_counter = t.id_counter := by
  have key : (Tabs.do_edit ops t tab cmd).2.1.tabs = t.tabs ∧
      (Tabs.do_edit ops t tab cmd).2.1.id_counter = t.id_counter := by
    cases h1 : mapGet tab t.tabs with
    | none => simp [Tabs.do_edit, h1]
    | some r =>
      cases h2 : mapGet r t.heap with
      | none => simp [Tabs.do_edit, h1, h2]
      | some ed => simp [Tabs.do_edit, h1, h2]
  exact ⟨key.1, key.2, rfl⟩
